import Mathlib

/-!
Shallow embedding of the beatblox_midi transcription core
(src/parsing/duration.rs, src/parsing/symbols.rs, src/parsing/mod.rs,
src/types/mod.rs, src/lib.rs).

Modelling conventions:
* `f32` values are embedded as `ℚ`.  Every constant appearing in the
  duration tables is a dyadic rational that `f32` represents exactly, and
  the arithmetic performed on them (sums, differences, products by small
  integers, halving) is exact in `f32` on the inputs the parser feeds it,
  so exact rational arithmetic is a faithful model on that domain.
* Rust `u8`/`u32`/`usize` counters are embedded as `ℕ`.  The only
  subtractions performed by the embedded code are on monotonically
  non-decreasing tick counters (no wrap-around), and the `u8` run counters
  of the triplet scan are bounded by the subdivision count of one beat.
* Code that can panic (vector indexing, slicing, `unwrap`, `%` by zero)
  is embedded with `Option`, `none` marking the panic.
* Rust `while` loops are embedded as fuel recursion; the fuel chosen by
  each wrapper is proved (or, where a claim does not need it, stated via
  an `Option`-valued result) to be large enough that `none` is only
  produced by a genuine panic path.
-/

/-- `NoteDuration` from src/parsing/duration.rs. -/
inductive NoteDuration
  | WHOLE
  | HALF
  | QUARTER
  | EIGHTH
  | SIXTEENTH
  | THIRTYSECOND
  | NaN
deriving DecidableEq, Repr

/-- `NoteDurationModifier` from src/parsing/duration.rs. -/
inductive NoteDurationModifier
  | None
  | Dotted
  | DoubleDotted
deriving DecidableEq, Repr

/-- `NoteDuration::shift_up` from src/parsing/duration.rs. -/
def NoteDuration.shift_up : NoteDuration → NoteDuration
  | .WHOLE => .NaN
  | .HALF => .WHOLE
  | .QUARTER => .HALF
  | .EIGHTH => .QUARTER
  | .SIXTEENTH => .EIGHTH
  | .THIRTYSECOND => .SIXTEENTH
  | .NaN => .NaN

/-- `NoteDuration::shift_down` from src/parsing/duration.rs. -/
def NoteDuration.shift_down : NoteDuration → NoteDuration
  | .WHOLE => .HALF
  | .HALF => .QUARTER
  | .QUARTER => .EIGHTH
  | .EIGHTH => .SIXTEENTH
  | .SIXTEENTH => .THIRTYSECOND
  | .THIRTYSECOND => .NaN
  | .NaN => .NaN

/-- `NoteDuration::shift` from src/parsing/duration.rs: `shift - 2`
applications of `shift_down` when `shift > 2`, `2 - shift` applications of
`shift_up` when `shift < 2` (the Rust `for _ in 2..shift` / `for _ in
shift..2` loops). -/
def NoteDuration.shift (d : NoteDuration) (s : ℕ) : NoteDuration :=
  if 2 < s then NoteDuration.shift_down^[s - 2] d
  else if s < 2 then NoteDuration.shift_up^[2 - s] d
  else d

/-- `NoteDuration::reverse_shift` from src/parsing/duration.rs. -/
def NoteDuration.reverse_shift (d : NoteDuration) (s : ℕ) : NoteDuration :=
  if 2 < s then NoteDuration.shift_up^[s - 2] d
  else if s < 2 then NoteDuration.shift_down^[2 - s] d
  else d

/-- `DurationType` from src/parsing/duration.rs. -/
structure DurationType where
  duration : NoteDuration
  modifier : NoteDurationModifier
deriving DecidableEq, Repr

/-- `DurationType::beat_type_map` from src/parsing/duration.rs: an exact
match of the raw `beats` value against the 18 table constants, the matched
base duration being shifted by `beat_type`; the default arm yields the
`(NaN, None)` sentinel. -/
def DurationType.beat_type_map (beats : ℚ) (beat_type : ℕ) : DurationType :=
  if beats = 7 then ⟨NoteDuration.WHOLE.shift beat_type, NoteDurationModifier.DoubleDotted⟩
  else if beats = 6 then ⟨NoteDuration.WHOLE.shift beat_type, NoteDurationModifier.Dotted⟩
  else if beats = 4 then ⟨NoteDuration.WHOLE.shift beat_type, NoteDurationModifier.None⟩
  else if beats = 7/2 then ⟨NoteDuration.HALF.shift beat_type, NoteDurationModifier.DoubleDotted⟩
  else if beats = 3 then ⟨NoteDuration.HALF.shift beat_type, NoteDurationModifier.Dotted⟩
  else if beats = 2 then ⟨NoteDuration.HALF.shift beat_type, NoteDurationModifier.None⟩
  else if beats = 7/4 then ⟨NoteDuration.QUARTER.shift beat_type, NoteDurationModifier.DoubleDotted⟩
  else if beats = 3/2 then ⟨NoteDuration.QUARTER.shift beat_type, NoteDurationModifier.Dotted⟩
  else if beats = 1 then ⟨NoteDuration.QUARTER.shift beat_type, NoteDurationModifier.None⟩
  else if beats = 7/8 then ⟨NoteDuration.EIGHTH.shift beat_type, NoteDurationModifier.DoubleDotted⟩
  else if beats = 3/4 then ⟨NoteDuration.EIGHTH.shift beat_type, NoteDurationModifier.Dotted⟩
  else if beats = 1/2 then ⟨NoteDuration.EIGHTH.shift beat_type, NoteDurationModifier.None⟩
  else if beats = 7/16 then ⟨NoteDuration.SIXTEENTH.shift beat_type, NoteDurationModifier.DoubleDotted⟩
  else if beats = 3/8 then ⟨NoteDuration.SIXTEENTH.shift beat_type, NoteDurationModifier.Dotted⟩
  else if beats = 1/4 then ⟨NoteDuration.SIXTEENTH.shift beat_type, NoteDurationModifier.None⟩
  else if beats = 7/32 then ⟨NoteDuration.THIRTYSECOND.shift beat_type, NoteDurationModifier.DoubleDotted⟩
  else if beats = 3/16 then ⟨NoteDuration.THIRTYSECOND.shift beat_type, NoteDurationModifier.Dotted⟩
  else if beats = 1/8 then ⟨NoteDuration.THIRTYSECOND.shift beat_type, NoteDurationModifier.None⟩
  else ⟨NoteDuration.NaN, NoteDurationModifier.None⟩

/-- `DurationType::get_beat_count` from src/parsing/duration.rs. -/
def DurationType.get_beat_count (self : DurationType) (beat_type : ℕ) : ℚ :=
  let duration := self.duration.reverse_shift beat_type
  let mod_factor : ℚ :=
    match self.modifier with
    | .DoubleDotted => 7/4
    | .Dotted => 3/2
    | .None => 1
  match duration with
  | .WHOLE => 4 * mod_factor
  | .HALF => 2 * mod_factor
  | .QUARTER => 1 * mod_factor
  | .EIGHTH => 1/2 * mod_factor
  | .SIXTEENTH => 1/4 * mod_factor
  | .THIRTYSECOND => 1/8 * mod_factor
  | .NaN => 0

/-- Rust `%` on `f32` (`fmod`, remainder truncated toward zero).  All
operands the embedded code feeds it are non-negative, where truncation
coincides with the floor. -/
def f32mod (a b : ℚ) : ℚ := a - b * ⌊a / b⌋

/-- `DurationType::quantize` from src/parsing/duration.rs. -/
def DurationType.quantize (self : DurationType) (beat_type : ℕ) (precision_beats : ℚ) :
    DurationType :=
  let beats := self.get_beat_count beat_type
  if beats < precision_beats then DurationType.beat_type_map precision_beats beat_type
  else DurationType.beat_type_map (beats - f32mod beats precision_beats) beat_type

/-- `POSSIBLE_NOTE_LENGTHS` from src/parsing/duration.rs (18 entries). -/
def POSSIBLE_NOTE_LENGTHS : List ℚ :=
  [1/8, 3/16, 7/32, 1/4, 3/8, 7/16, 1/2, 3/4, 7/8, 1, 3/2, 7/4, 2, 3, 7/2, 4, 6, 7]

/-- Loop of `get_nested_beat_value` from src/parsing/mod.rs: walking
`i = 1..18`, `prev` is `POSSIBLE_NOTE_LENGTHS[i-1]` and `rest` the table
from index `i`; the first entry exceeding `beats` returns `prev`, and
exhausting the table returns the last entry (which is `prev` then). -/
def nested_go (beats : ℚ) : ℚ → List ℚ → ℚ
  | prev, [] => prev
  | prev, x :: rest => if x > beats then prev else nested_go beats x rest

/-- `get_nested_beat_value` from src/parsing/mod.rs. -/
def get_nested_beat_value (beats : ℚ) : ℚ :=
  nested_go beats (POSSIBLE_NOTE_LENGTHS.getD 0 0) (POSSIBLE_NOTE_LENGTHS.drop 1)

/-- Loop of `get_tied_note` from src/parsing/mod.rs, at the level of the
chosen table values: while the remainder is positive, subtract the value
chosen by `get_nested_beat_value`.  The Rust loop carries no fuel; the
wrapper below supplies fuel that is proved sufficient
(`get_tied_note_loop_isSome`), so `none` never actually occurs. -/
def get_tied_note_loop : ℕ → ℚ → Option (List ℚ)
  | 0, remaining_beats => if 0 < remaining_beats then none else some []
  | fuel + 1, remaining_beats =>
    if 0 < remaining_beats then
      let v := get_nested_beat_value remaining_beats
      Option.map (fun vs => v :: vs) (get_tied_note_loop fuel (remaining_beats - v))
    else some []

/-- The table values chosen by the `get_tied_note` loop for duration `b`. -/
def tied_note_values (b : ℚ) : List ℚ :=
  (get_tied_note_loop ((⌈b * 8⌉).toNat + 1) b).getD []

/-- `NoteModifier` and `NoteWrapper` from src/parsing/symbols.rs, and
`Note` with `Track` alongside them. -/
structure Note where
  value : ℕ
  duration : DurationType
  velocity : ℕ

mutual
inductive NoteWrapper
  | PlainNote (n : Note)
  | ModifiedNote (m : NoteModifier)
  | Rest (n : Note)

inductive NoteModifier
  | TiedNote (l : List NoteWrapper)
  | Chord (l : List NoteWrapper)
  | Triplet (l : List NoteWrapper)
end

/-- `NoteWrapper::build_note_wrapper` from src/parsing/symbols.rs. -/
def build_note_wrapper (value : ℕ) (duration : DurationType) (velocity : ℕ) : NoteWrapper :=
  if value = 255 then NoteWrapper.Rest ⟨value, duration, velocity⟩
  else NoteWrapper.PlainNote ⟨value, duration, velocity⟩

/-- `get_tied_note` from src/parsing/mod.rs: one leaf per chosen table
value, classified by `beat_type_map`, wrapped as a tied group. -/
def get_tied_note (value : ℕ) (duration : ℚ) (velocity : ℕ) (beat_type : ℕ) : NoteModifier :=
  NoteModifier.TiedNote
    ((tied_note_values duration).map
      (fun v => build_note_wrapper value (DurationType.beat_type_map v beat_type) velocity))

/-- `parse_note_data` from src/parsing/mod.rs. -/
def parse_note_data (nd : ℕ × ℕ) (beat_length : ℚ) (beat_type : ℕ) : NoteWrapper :=
  let duration := DurationType.beat_type_map beat_length beat_type
  if duration.duration = NoteDuration.NaN then
    NoteWrapper.ModifiedNote (get_tied_note nd.1 beat_length nd.2 beat_type)
  else build_note_wrapper nd.1 duration nd.2

/-- `gen_wrapper` from src/parsing/mod.rs: the non-255 entries are parsed
in input order; none of them gives a rest, exactly one gives that bare
wrapper, and two or more give a chord. -/
def gen_wrapper (cur_note : List (ℕ × ℕ)) (beat_length : ℚ) (beat_type : ℕ) : NoteWrapper :=
  match (cur_note.filter (fun nd => nd.1 ≠ 255)).map
      (fun nd => parse_note_data nd beat_length beat_type) with
  | [] => build_note_wrapper 255 (DurationType.beat_type_map beat_length beat_type) 0
  | [w] => w
  | chord => NoteWrapper.ModifiedNote (NoteModifier.Chord chord)

/-- `gen_triplet` from src/parsing/mod.rs. -/
def gen_triplet (beat_data : List (List (ℕ × ℕ))) (beat_type : ℕ) : NoteWrapper :=
  NoteWrapper.ModifiedNote
    (NoteModifier.Triplet
      ((beat_data.filter (fun div => 0 < div.length)).map
        (fun div => gen_wrapper div (1/2) beat_type)))

/-- The `[u8; 3]::sort` of src/parsing/mod.rs specialised to its three
elements (an exchange network returning them in ascending order). -/
def sort3 (a b c : ℕ) : ℕ × ℕ × ℕ :=
  let p1 := if a ≤ b then (a, b) else (b, a)
  let p2 := if p1.2 ≤ c then (p1.2, c) else (c, p1.2)
  let p3 := if p1.1 ≤ p2.1 then (p1.1, p2.1) else (p2.1, p1.1)
  (p3.1, p3.2, p2.2)

/-- The inner `while` of `is_possible_triplet` from src/parsing/mod.rs:
advance `i` past empty subdivision slots (`fuel` is the distance to the
end of the grid, so the recursion is structural; the loop itself stops at
the grid length). -/
def skip_go (beat_grid : List (List (ℕ × ℕ))) : ℕ → ℕ → ℕ
  | 0, i => i
  | fuel + 1, i =>
    if i < beat_grid.length ∧ beat_grid.getD i [] = [] then skip_go beat_grid fuel (i + 1)
    else i

/-- First index `j ≥ i` that is past the grid or holds a non-empty slot. -/
def skip_empties (beat_grid : List (List (ℕ × ℕ))) (i : ℕ) : ℕ :=
  skip_go beat_grid (beat_grid.length - i) i

/-- One iteration of the `for data_point_index in 0..3` loop of
`is_possible_triplet`: starting at slot `i`, the run counter is set to 1,
`i` advances by one and then past empty slots; returns the run length and
the next start. -/
def triplet_run (beat_grid : List (List (ℕ × ℕ))) (i : ℕ) : ℕ × ℕ :=
  let j := skip_empties beat_grid (i + 1)
  (1 + (j - (i + 1)), j)

/-- `is_possible_triplet` from src/parsing/mod.rs. -/
def is_possible_triplet (beat_data : List (List (ℕ × ℕ)) × ℕ) : Bool :=
  if beat_data.2 ≠ 3 then false
  else
    let beat_grid := beat_data.1
    let r0 := triplet_run beat_grid 0
    let r1 := triplet_run beat_grid r0.2
    let r2 := triplet_run beat_grid r1.2
    let s := sort3 r0.1 r1.1 r2.1
    decide (s.2.2 - s.1 ≤ 2 ∧ beat_grid.length / 4 < s.2.2)

/-- `get_triplets` from src/parsing/mod.rs (beats are reported 1-based). -/
def get_triplets_go : ℕ → List (List (List (ℕ × ℕ)) × ℕ) → List ℕ
  | _, [] => []
  | i, b :: rest =>
    if is_possible_triplet b then (i + 1) :: get_triplets_go (i + 1) rest
    else get_triplets_go (i + 1) rest

/-- `get_triplets` from src/parsing/mod.rs. -/
def get_triplets (quantized_note_data : List (List (List (ℕ × ℕ)) × ℕ)) : List ℕ :=
  get_triplets_go 0 quantized_note_data

/-- Specification-side gap counter for the triplet scan: the number of
empty slots immediately following slot `i`. -/
def rest_gap (beat_grid : List (List (ℕ × ℕ))) (i : ℕ) : ℕ :=
  ((beat_grid.drop (i + 1)).takeWhile (fun s => s.isEmpty)).length

/-- The already-decoded midly events the core consumes (§6 input
boundary): note-on/note-off messages, and the meta events the header
reader inspects.  `TimeSignature` carries the four raw bytes of the
meta-event; `InstrumentName` carries the already-decoded string. -/
inductive MidiMessage
  | NoteOn (key vel : ℕ)
  | NoteOff (key vel : ℕ)
  | OtherMidi

inductive MetaMessage
  | Tempo (microseconds_per_beat : ℕ)
  | TimeSignature (numerator denominator x y : ℕ)
  | InstrumentName (s : String)
  | OtherMeta

inductive TrackEventKind
  | Midi (channel : ℕ) (message : MidiMessage)
  | Meta (message : MetaMessage)
  | OtherKind

/-- `midly::TrackEvent`: a delta-time plus an event kind. -/
structure TrackEvent where
  delta : ℕ
  kind : TrackEventKind

/-- `TimeSignature` from src/parsing/symbols.rs. -/
structure TimeSignature where
  beat_count : ℕ
  beat_type : ℕ
  time_of_occurance : ℕ
deriving DecidableEq, Repr

/-- `get_bpm` from src/parsing/mod.rs: the first tempo meta-event yields
`microseconds_per_beat / 1000000 * 60` in truncating `u32` arithmetic;
no tempo meta-event yields 0. -/
def get_bpm : List TrackEvent → ℕ
  | [] => 0
  | e :: rest =>
    match e.kind with
    | .Meta (.Tempo microseconds_per_beat) => microseconds_per_beat / 1000000 * 60
    | _ => get_bpm rest

/-- Loop of `get_time_signature` from src/parsing/mod.rs, carrying the
cumulative tick counter. -/
def get_time_signature_go : List TrackEvent → ℕ → List TimeSignature
  | [], _ => []
  | e :: rest, cur_time =>
    let t := cur_time + e.delta
    match e.kind with
    | .Meta (.TimeSignature numerator denominator _ _) =>
      ⟨numerator, denominator, t⟩ :: get_time_signature_go rest t
    | _ => get_time_signature_go rest t

/-- `get_time_signature` from src/parsing/mod.rs. -/
def get_time_signature (track : List TrackEvent) : List TimeSignature :=
  get_time_signature_go track 0

/-- `get_name` from src/parsing/mod.rs. -/
def get_name : List TrackEvent → String
  | [] => ""
  | e :: rest =>
    match e.kind with
    | .Meta (.InstrumentName s) => s
    | _ => get_name rest

/-- `RawNoteData` from src/parsing/mod.rs. -/
structure RawNoteData where
  key : ℕ
  onset : ℕ
  vel : ℕ
deriving DecidableEq, Repr

/-- Loop of `get_raw_note_data` from src/parsing/mod.rs, with the scan
state `(cur_time, cur_velocity, note_on_time, note_off_time)`.  On a
note-on, a `(255, note_off_time, 0)` rest record is emitted when the gap
since the last note-off reaches `ceil(ticks_per_beat * 0.125)` ticks; on a
note-off, the interval of the tracked note is emitted. -/
def get_raw_note_data_go (ticks_per_beat : ℚ) (scalar : ℕ) :
    List TrackEvent → ℕ → ℕ → ℕ → ℕ → List RawNoteData
  | [], _, _, _, _ => []
  | e :: rest, cur_time, cur_velocity, note_on_time, note_off_time =>
    let t := cur_time + e.delta * scalar
    match e.kind with
    | .Midi _ (.NoteOn _ vel) =>
      (if (⌈ticks_per_beat * (1/8)⌉).toNat ≤ t - note_off_time
        then [⟨255, note_off_time, 0⟩] else [])
        ++ get_raw_note_data_go ticks_per_beat scalar rest t vel t note_off_time
    | .Midi _ (.NoteOff key _) =>
      ⟨key, note_on_time, cur_velocity⟩
        :: get_raw_note_data_go ticks_per_beat scalar rest t cur_velocity note_on_time t
    | _ => get_raw_note_data_go ticks_per_beat scalar rest t cur_velocity note_on_time note_off_time

/-- `get_raw_note_data` from src/parsing/mod.rs. -/
def get_raw_note_data (track : List TrackEvent) (ticks_per_beat : ℚ) (scalar : ℕ) :
    List RawNoteData :=
  get_raw_note_data_go ticks_per_beat scalar track 0 0 0 0

/-- `Vec` indexing plus `push` on a beat container
(`beat_container[position].push(..)` in `quantize`); `none` is the
out-of-bounds panic. -/
def push_at (container : List (List (ℕ × ℕ))) (position : ℕ) (x : ℕ × ℕ) :
    Option (List (List (ℕ × ℕ))) :=
  if position < container.length then
    some (container.set position (container.getD position [] ++ [x]))
  else none

/-- The inner `while note.onset < cur_beat` of `quantize` from
src/parsing/mod.rs: bucket notes of the current beat into subdivision
slots.  Returns the filled container, the note count, and `none` in place
of the flag when the raw data ran out (otherwise the next note and the
remaining queue). -/
def quantize_beat (ticks_per_beat : ℚ) (divisions : ℚ) (tpb_u : ℕ) (cur_beat : ℕ) :
    RawNoteData → List RawNoteData → List (List (ℕ × ℕ)) → ℕ →
    Option (List (List (ℕ × ℕ)) × ℕ × Option (RawNoteData × List RawNoteData))
  | note, data, container, note_count =>
    if note.onset < cur_beat then
      let onset := note.onset - (cur_beat - tpb_u)
      let position := (⌊(onset : ℚ) * (1 / ticks_per_beat) * divisions⌋).toNat
      match push_at container position (note.key, note.vel) with
      | none => none
      | some c2 =>
        match data with
        | [] => some (c2, note_count + 1, none)
        | n2 :: rest =>
          quantize_beat ticks_per_beat divisions tpb_u cur_beat n2 rest c2 (note_count + 1)
    else some (container, note_count, some (note, data))

/-- The outer `while flag` of `quantize`: one fresh beat container per
iteration, pushed together with its note count. -/
def quantize_go (ticks_per_beat : ℚ) (divisions : ℚ) (tpb_u : ℕ) :
    ℕ → ℕ → RawNoteData → List RawNoteData →
    Option (List (List (List (ℕ × ℕ)) × ℕ))
  | 0, _, _, _ => none
  | fuel + 1, cur_beat, note, data =>
    let dsize := (⌊divisions⌋).toNat
    match quantize_beat ticks_per_beat divisions tpb_u cur_beat note data
        (List.replicate dsize []) 0 with
    | none => none
    | some (bc, cnt, none) => some [(bc, cnt)]
    | some (bc, cnt, some (n2, rest)) =>
      Option.map (fun tl => (bc, cnt) :: tl)
        (quantize_go ticks_per_beat divisions tpb_u fuel (cur_beat + tpb_u) n2 rest)

/-- The final step of `quantize`: `notes[0].0[0]` gets a `(255, 0)` rest
pushed (and the count incremented) when the first subdivision slot of the
first beat is empty.  `none` models the `notes[0].0[0]` indexing panic
(first container empty, i.e. `divisions as usize == 0`); the outer loop
always pushes at least one beat, so the empty-list arm is unreachable from
`quantize` and also maps to the panic. -/
def fix_first : List (List (List (ℕ × ℕ)) × ℕ) →
    Option (List (List (List (ℕ × ℕ)) × ℕ))
  | [] => none
  | (bc, cnt) :: rest =>
    match bc with
    | [] => none
    | s0 :: srest =>
      if s0 = [] then some (((s0 ++ [(255, 0)]) :: srest, cnt + 1) :: rest)
      else some ((s0 :: srest, cnt) :: rest)

/-- `Midi` from src/lib.rs and `Track` from src/parsing/mod.rs. -/
structure Track where
  name : String
  notes : List NoteWrapper

structure Midi where
  bmp : ℕ
  time_signatures : List TimeSignature
  ticks_per_beat : ℚ
  tracks : List Track

/-- `quantize` from src/parsing/mod.rs.  The outer-loop fuel covers one
iteration per raw note plus one per beat up to the largest onset; it is
exhausted only when `ticks_per_beat as u32` is 0, where the Rust loop
itself never terminates. -/
def quantize (midi : Midi) (track : List TrackEvent) (divisions : ℚ) :
    Option (List (List (List (ℕ × ℕ)) × ℕ)) :=
  let scaled := ¬ f32mod midi.ticks_per_beat 12 = 0
  let ticks_per_beat := if scaled then midi.ticks_per_beat * 12 else midi.ticks_per_beat
  let scalar := if scaled then 12 else 1
  match get_raw_note_data track ticks_per_beat scalar with
  | [] => some []
  | note :: rest =>
    let tpb_u := (⌊ticks_per_beat⌋).toNat
    let fuel := (note :: rest).length +
      ((note :: rest).map RawNoteData.onset).foldr max 0 / max tpb_u 1 + 2
    match quantize_go ticks_per_beat divisions tpb_u fuel tpb_u note rest with
    | none => none
    | some notes => fix_first notes

/-- `DEFAULT_DURATION_PRECISION` from src/parsing/duration.rs. -/
def DEFAULT_DURATION_PRECISION : DurationType :=
  ⟨NoteDuration.THIRTYSECOND, NoteDurationModifier.None⟩

/-- The `while i < complete_beat_grid.len()` loop of `get_notes` from
src/parsing/mod.rs.  `none` models the `i % 0` panic (`divisions as usize
== 0`) and the out-of-range slice `complete_beat_grid[i..i+divisions]` of
the triplet branch.  `i` advances by at least 1 per iteration, so the
initial fuel `grid.length + 1` makes the fuel-0 arm (which mirrors the
loop exit condition) unreachable with `i` still inside the grid. -/
def get_notes_loop (grid : List (List (ℕ × ℕ))) (divisions : ℚ) (dsize beat_type : ℕ) :
    ℕ → List ℕ → ℕ → ℕ → ℕ → List (ℕ × ℕ) → List NoteWrapper →
    Option (List NoteWrapper)
  | 0, _, i, _, _, _, notes => if i < grid.length then none else some notes
  | fuel + 1, possible_triplets, i, beat_count, length, cur_note, notes =>
    if i < grid.length then
      if dsize = 0 then none
      else
        let isBeatStart := i % dsize = 0
        let bc2 := if isBeatStart then beat_count + 1 else beat_count
        if isBeatStart ∧ possible_triplets ≠ [] ∧ possible_triplets.headD 0 = bc2 then
          if grid.length < i + dsize then none
          else
            get_notes_loop grid divisions dsize beat_type fuel possible_triplets.tail
              (i + dsize) bc2 0 cur_note
              (notes ++ [gen_triplet ((grid.drop i).take dsize) beat_type])
        else
          let slot := grid.getD i []
          let notes2 :=
            if slot ≠ [] ∧ length ≠ 0 then
              notes ++ [gen_wrapper cur_note ((length : ℚ) / divisions) beat_type]
            else notes
          let cur2 := if slot ≠ [] then slot else cur_note
          let len2 := (if slot ≠ [] then 0 else length) + 1
          get_notes_loop grid divisions dsize beat_type fuel possible_triplets
            (i + 1) bc2 len2 cur2 notes2
    else some notes

/-- `get_notes` from src/parsing/mod.rs.  `midi.time_signatures[0]` is the
indexing that panics when track 0 held no time-signature meta-event;
`none` models that panic. -/
def get_notes (midi : Midi) (track : List TrackEvent) (precision : DurationType)
    (triplet : Bool) : Option (List NoteWrapper) :=
  match midi.time_signatures.head? with
  | none => none
  | some ts0 =>
    let beat_type := ts0.beat_type
    let precision_beat := precision.get_beat_count beat_type
    let divisions : ℚ :=
      if triplet then 4 / precision_beat / 2 * (3/2) else 1 / precision_beat
    match quantize midi track divisions with
    | none => none
    | some quantized_note_data =>
      let possible_triplets := if triplet then get_triplets quantized_note_data else []
      let complete_beat_grid := (quantized_note_data.map Prod.fst).flatten
      get_notes_loop complete_beat_grid divisions ((⌊divisions⌋).toNat) beat_type
        (complete_beat_grid.length + 1) possible_triplets 0 0 0 [] []

/-- `parse_track` from src/parsing/mod.rs. -/
def parse_track (midi : Midi) (track : List TrackEvent) (precision : DurationType)
    (triplet : Bool) : Option Track :=
  Option.map (fun notes => Track.mk (get_name track) notes)
    (get_notes midi track precision triplet)

/-- `load_tracks` from src/parsing/mod.rs: every track of the file is
parsed against the header snapshot and appended to `midi.tracks`; a panic
while building any track aborts the whole parse. -/
def load_tracks (midi : Midi) (tracks : List (List TrackEvent)) (precision : DurationType)
    (triplet : Bool) : Option Midi :=
  Option.map (fun ts => { midi with tracks := midi.tracks ++ ts })
    (tracks.mapM (fun t => parse_track midi t precision triplet))

namespace types

/-- `NoteDuration` from src/types/mod.rs (the module not wired into
src/lib.rs; it additionally has `SIXTYFOURTH`). -/
inductive NoteDuration
  | WHOLE
  | HALF
  | QUARTER
  | EIGHTH
  | SIXTEENTH
  | THIRTYSECOND
  | SIXTYFOURTH
  | NaN
deriving DecidableEq, Repr

/-- `NoteDurationModifier` from src/types/mod.rs. -/
inductive NoteDurationModifier
  | None
  | Dotted
  | DoubleDotted
deriving DecidableEq, Repr

/-- `DurationType` from src/types/mod.rs (a pair alias). -/
abbrev DurationType := NoteDuration × NoteDurationModifier

/-- `beat_type_map` from src/types/mod.rs: the scaled value
`beats * beat_type²` is matched exactly against the 21 table constants;
the default arm yields `(NaN, None)`. -/
def beat_type_map (beats beat_type : ℚ) : DurationType :=
  let v := beats * beat_type ^ 2
  if v = 112 then (NoteDuration.WHOLE, NoteDurationModifier.DoubleDotted)
  else if v = 96 then (NoteDuration.WHOLE, NoteDurationModifier.Dotted)
  else if v = 64 then (NoteDuration.WHOLE, NoteDurationModifier.None)
  else if v = 56 then (NoteDuration.HALF, NoteDurationModifier.DoubleDotted)
  else if v = 48 then (NoteDuration.HALF, NoteDurationModifier.Dotted)
  else if v = 32 then (NoteDuration.HALF, NoteDurationModifier.None)
  else if v = 28 then (NoteDuration.QUARTER, NoteDurationModifier.DoubleDotted)
  else if v = 24 then (NoteDuration.QUARTER, NoteDurationModifier.Dotted)
  else if v = 16 then (NoteDuration.QUARTER, NoteDurationModifier.None)
  else if v = 14 then (NoteDuration.EIGHTH, NoteDurationModifier.DoubleDotted)
  else if v = 12 then (NoteDuration.EIGHTH, NoteDurationModifier.Dotted)
  else if v = 8 then (NoteDuration.EIGHTH, NoteDurationModifier.None)
  else if v = 7 then (NoteDuration.SIXTEENTH, NoteDurationModifier.DoubleDotted)
  else if v = 6 then (NoteDuration.SIXTEENTH, NoteDurationModifier.Dotted)
  else if v = 4 then (NoteDuration.SIXTEENTH, NoteDurationModifier.None)
  else if v = 7/2 then (NoteDuration.THIRTYSECOND, NoteDurationModifier.DoubleDotted)
  else if v = 3 then (NoteDuration.THIRTYSECOND, NoteDurationModifier.Dotted)
  else if v = 2 then (NoteDuration.THIRTYSECOND, NoteDurationModifier.None)
  else if v = 7/4 then (NoteDuration.SIXTYFOURTH, NoteDurationModifier.DoubleDotted)
  else if v = 3/2 then (NoteDuration.SIXTYFOURTH, NoteDurationModifier.Dotted)
  else if v = 1 then (NoteDuration.SIXTYFOURTH, NoteDurationModifier.None)
  else (NoteDuration.NaN, NoteDurationModifier.None)

end types

/-- The 21 scaled lookup keys of `types::beat_type_map` (the left-hand
sides of its match arms). -/
def SCALED_LOOKUP_VALUES : List ℚ :=
  [112, 96, 64, 56, 48, 32, 28, 24, 16, 14, 12, 8, 7, 6, 4, 7/2, 3, 2, 7/4, 3/2, 1]

/-- A greedy decomposition trace for §4.5: starting from remainder `r`,
each emitted value is a table entry, does not exceed the remainder, is the
largest such entry, and the trace ends exactly when the remainder is no
longer positive. -/
def isGreedyTrace : ℚ → List ℚ → Prop
  | r, [] => ¬ 0 < r
  | r, v :: vs =>
    0 < r ∧ v ∈ POSSIBLE_NOTE_LENGTHS ∧ v ≤ r ∧
      (∀ t ∈ POSSIBLE_NOTE_LENGTHS, t ≤ r → t ≤ v) ∧ isGreedyTrace (r - v) vs

lemma shift_up_shift_down (d : NoteDuration) (h : d.shift_down ≠ NoteDuration.NaN) :
    d.shift_down.shift_up = d := by
  cases d <;> first | rfl | exact absurd rfl h

lemma shift_down_shift_up (d : NoteDuration) (h : d.shift_up ≠ NoteDuration.NaN) :
    d.shift_up.shift_down = d := by
  cases d <;> first | rfl | exact absurd rfl h

lemma iterate_up_down (n : ℕ) :
    ∀ d : NoteDuration,
      NoteDuration.shift_down^[n] d = NoteDuration.NaN ∨
        NoteDuration.shift_up^[n] (NoteDuration.shift_down^[n] d) = d := by
  induction n with
  | zero => intro d; right; rfl
  | succ n ih =>
    intro d
    by_cases hd : d.shift_down = NoteDuration.NaN
    · left
      rw [Function.iterate_succ_apply, hd]
      exact Function.iterate_fixed rfl n
    · rcases ih d.shift_down with h | h
      · left
        rw [Function.iterate_succ_apply]
        exact h
      · right
        have hdown : NoteDuration.shift_down^[n + 1] d =
            NoteDuration.shift_down^[n] d.shift_down := Function.iterate_succ_apply ..
        rw [hdown, Function.iterate_succ_apply', h, shift_up_shift_down d hd]

lemma iterate_down_up (n : ℕ) :
    ∀ d : NoteDuration,
      NoteDuration.shift_up^[n] d = NoteDuration.NaN ∨
        NoteDuration.shift_down^[n] (NoteDuration.shift_up^[n] d) = d := by
  induction n with
  | zero => intro d; right; rfl
  | succ n ih =>
    intro d
    by_cases hd : d.shift_up = NoteDuration.NaN
    · left
      rw [Function.iterate_succ_apply, hd]
      exact Function.iterate_fixed rfl n
    · rcases ih d.shift_up with h | h
      · left
        rw [Function.iterate_succ_apply]
        exact h
      · right
        have hup : NoteDuration.shift_up^[n + 1] d =
            NoteDuration.shift_up^[n] d.shift_up := Function.iterate_succ_apply ..
        rw [hup, Function.iterate_succ_apply', h, shift_down_shift_up d hd]

lemma reverse_shift_shift (d : NoteDuration) (s : ℕ) :
    d.shift s = NoteDuration.NaN ∨ (d.shift s).reverse_shift s = d := by
  unfold NoteDuration.shift NoteDuration.reverse_shift
  split_ifs with h1 h2
  · exact iterate_up_down (s - 2) d
  · exact iterate_down_up (2 - s) d
  · right; rfl

lemma reverse_shift_two (d : NoteDuration) : d.reverse_shift 2 = d := by
  unfold NoteDuration.reverse_shift
  norm_num

lemma get_beat_count_shift (X : NoteDuration) (M : NoteDurationModifier) (bt : ℕ)
    (h : X.shift bt ≠ NoteDuration.NaN) :
    DurationType.get_beat_count ⟨X.shift bt, M⟩ bt =
      DurationType.get_beat_count ⟨X, M⟩ 2 := by
  rcases reverse_shift_shift X bt with hh | hh
  · exact absurd hh h
  · unfold DurationType.get_beat_count
    rw [hh, reverse_shift_two]


lemma btm_7 (bt : ℕ) :
    DurationType.beat_type_map (7) bt =
      ⟨NoteDuration.WHOLE.shift bt, NoteDurationModifier.DoubleDotted⟩ := by
  unfold DurationType.beat_type_map
  norm_num

lemma btm_6 (bt : ℕ) :
    DurationType.beat_type_map (6) bt =
      ⟨NoteDuration.WHOLE.shift bt, NoteDurationModifier.Dotted⟩ := by
  unfold DurationType.beat_type_map
  norm_num

lemma btm_4 (bt : ℕ) :
    DurationType.beat_type_map (4) bt =
      ⟨NoteDuration.WHOLE.shift bt, NoteDurationModifier.None⟩ := by
  unfold DurationType.beat_type_map
  norm_num

lemma btm_72 (bt : ℕ) :
    DurationType.beat_type_map (7/2) bt =
      ⟨NoteDuration.HALF.shift bt, NoteDurationModifier.DoubleDotted⟩ := by
  unfold DurationType.beat_type_map
  norm_num

lemma btm_3 (bt : ℕ) :
    DurationType.beat_type_map (3) bt =
      ⟨NoteDuration.HALF.shift bt, NoteDurationModifier.Dotted⟩ := by
  unfold DurationType.beat_type_map
  norm_num

lemma btm_2 (bt : ℕ) :
    DurationType.beat_type_map (2) bt =
      ⟨NoteDuration.HALF.shift bt, NoteDurationModifier.None⟩ := by
  unfold DurationType.beat_type_map
  norm_num

lemma btm_74 (bt : ℕ) :
    DurationType.beat_type_map (7/4) bt =
      ⟨NoteDuration.QUARTER.shift bt, NoteDurationModifier.DoubleDotted⟩ := by
  unfold DurationType.beat_type_map
  norm_num

lemma btm_32 (bt : ℕ) :
    DurationType.beat_type_map (3/2) bt =
      ⟨NoteDuration.QUARTER.shift bt, NoteDurationModifier.Dotted⟩ := by
  unfold DurationType.beat_type_map
  norm_num

lemma btm_1 (bt : ℕ) :
    DurationType.beat_type_map (1) bt =
      ⟨NoteDuration.QUARTER.shift bt, NoteDurationModifier.None⟩ := by
  unfold DurationType.beat_type_map
  norm_num

lemma btm_78 (bt : ℕ) :
    DurationType.beat_type_map (7/8) bt =
      ⟨NoteDuration.EIGHTH.shift bt, NoteDurationModifier.DoubleDotted⟩ := by
  unfold DurationType.beat_type_map
  norm_num

lemma btm_34 (bt : ℕ) :
    DurationType.beat_type_map (3/4) bt =
      ⟨NoteDuration.EIGHTH.shift bt, NoteDurationModifier.Dotted⟩ := by
  unfold DurationType.beat_type_map
  norm_num

lemma btm_12 (bt : ℕ) :
    DurationType.beat_type_map (1/2) bt =
      ⟨NoteDuration.EIGHTH.shift bt, NoteDurationModifier.None⟩ := by
  unfold DurationType.beat_type_map
  norm_num

lemma btm_716 (bt : ℕ) :
    DurationType.beat_type_map (7/16) bt =
      ⟨NoteDuration.SIXTEENTH.shift bt, NoteDurationModifier.DoubleDotted⟩ := by
  unfold DurationType.beat_type_map
  norm_num

lemma btm_38 (bt : ℕ) :
    DurationType.beat_type_map (3/8) bt =
      ⟨NoteDuration.SIXTEENTH.shift bt, NoteDurationModifier.Dotted⟩ := by
  unfold DurationType.beat_type_map
  norm_num

lemma btm_14 (bt : ℕ) :
    DurationType.beat_type_map (1/4) bt =
      ⟨NoteDuration.SIXTEENTH.shift bt, NoteDurationModifier.None⟩ := by
  unfold DurationType.beat_type_map
  norm_num

lemma btm_732 (bt : ℕ) :
    DurationType.beat_type_map (7/32) bt =
      ⟨NoteDuration.THIRTYSECOND.shift bt, NoteDurationModifier.DoubleDotted⟩ := by
  unfold DurationType.beat_type_map
  norm_num

lemma btm_316 (bt : ℕ) :
    DurationType.beat_type_map (3/16) bt =
      ⟨NoteDuration.THIRTYSECOND.shift bt, NoteDurationModifier.Dotted⟩ := by
  unfold DurationType.beat_type_map
  norm_num

lemma btm_18 (bt : ℕ) :
    DurationType.beat_type_map (1/8) bt =
      ⟨NoteDuration.THIRTYSECOND.shift bt, NoteDurationModifier.None⟩ := by
  unfold DurationType.beat_type_map
  norm_num

lemma beat_type_map_not_mem (beats : ℚ) (beat_type : ℕ)
    (h : beats ∉ POSSIBLE_NOTE_LENGTHS) :
    DurationType.beat_type_map beats beat_type =
      ⟨NoteDuration.NaN, NoteDurationModifier.None⟩ := by
  have n1 : beats ≠ (7 : ℚ) := fun e => h (by rw [e]; simp [POSSIBLE_NOTE_LENGTHS])
  have n2 : beats ≠ (6 : ℚ) := fun e => h (by rw [e]; simp [POSSIBLE_NOTE_LENGTHS])
  have n3 : beats ≠ (4 : ℚ) := fun e => h (by rw [e]; simp [POSSIBLE_NOTE_LENGTHS])
  have n4 : beats ≠ (7/2 : ℚ) := fun e => h (by rw [e]; simp [POSSIBLE_NOTE_LENGTHS])
  have n5 : beats ≠ (3 : ℚ) := fun e => h (by rw [e]; simp [POSSIBLE_NOTE_LENGTHS])
  have n6 : beats ≠ (2 : ℚ) := fun e => h (by rw [e]; simp [POSSIBLE_NOTE_LENGTHS])
  have n7 : beats ≠ (7/4 : ℚ) := fun e => h (by rw [e]; simp [POSSIBLE_NOTE_LENGTHS])
  have n8 : beats ≠ (3/2 : ℚ) := fun e => h (by rw [e]; simp [POSSIBLE_NOTE_LENGTHS])
  have n9 : beats ≠ (1 : ℚ) := fun e => h (by rw [e]; simp [POSSIBLE_NOTE_LENGTHS])
  have n10 : beats ≠ (7/8 : ℚ) := fun e => h (by rw [e]; simp [POSSIBLE_NOTE_LENGTHS])
  have n11 : beats ≠ (3/4 : ℚ) := fun e => h (by rw [e]; simp [POSSIBLE_NOTE_LENGTHS])
  have n12 : beats ≠ (1/2 : ℚ) := fun e => h (by rw [e]; simp [POSSIBLE_NOTE_LENGTHS])
  have n13 : beats ≠ (7/16 : ℚ) := fun e => h (by rw [e]; simp [POSSIBLE_NOTE_LENGTHS])
  have n14 : beats ≠ (3/8 : ℚ) := fun e => h (by rw [e]; simp [POSSIBLE_NOTE_LENGTHS])
  have n15 : beats ≠ (1/4 : ℚ) := fun e => h (by rw [e]; simp [POSSIBLE_NOTE_LENGTHS])
  have n16 : beats ≠ (7/32 : ℚ) := fun e => h (by rw [e]; simp [POSSIBLE_NOTE_LENGTHS])
  have n17 : beats ≠ (3/16 : ℚ) := fun e => h (by rw [e]; simp [POSSIBLE_NOTE_LENGTHS])
  have n18 : beats ≠ (1/8 : ℚ) := fun e => h (by rw [e]; simp [POSSIBLE_NOTE_LENGTHS])
  unfold DurationType.beat_type_map
  rw [if_neg n1, if_neg n2, if_neg n3, if_neg n4, if_neg n5, if_neg n6, if_neg n7, if_neg n8, if_neg n9, if_neg n10, if_neg n11, if_neg n12, if_neg n13, if_neg n14, if_neg n15, if_neg n16, if_neg n17, if_neg n18]

lemma get_beat_count_of_beat_type_map (x : ℚ) (bt : ℕ)
    (h : (DurationType.beat_type_map x bt).duration ≠ NoteDuration.NaN) :
    (DurationType.beat_type_map x bt).get_beat_count bt = x := by
  by_cases hm : x ∈ POSSIBLE_NOTE_LENGTHS
  · simp only [POSSIBLE_NOTE_LENGTHS] at hm
    fin_cases hm <;>
      first
      | rw [btm_7] at h ⊢
      | rw [btm_6] at h ⊢
      | rw [btm_4] at h ⊢
      | rw [btm_72] at h ⊢
      | rw [btm_3] at h ⊢
      | rw [btm_2] at h ⊢
      | rw [btm_74] at h ⊢
      | rw [btm_32] at h ⊢
      | rw [btm_1] at h ⊢
      | rw [btm_78] at h ⊢
      | rw [btm_34] at h ⊢
      | rw [btm_12] at h ⊢
      | rw [btm_716] at h ⊢
      | rw [btm_38] at h ⊢
      | rw [btm_14] at h ⊢
      | rw [btm_732] at h ⊢
      | rw [btm_316] at h ⊢
      | rw [btm_18] at h ⊢
    all_goals
      rw [get_beat_count_shift _ _ _ (by simpa using h)]
      simp [DurationType.get_beat_count, reverse_shift_two]
      try norm_num
  · rw [beat_type_map_not_mem x bt hm] at h
    exact absurd rfl h
lemma nested_go_mem (b : ℚ) :
    ∀ (l : List ℚ) (prev : ℚ), nested_go b prev l = prev ∨ nested_go b prev l ∈ l := by
  intro l
  induction l with
  | nil => intro prev; left; rfl
  | cons x rest ih =>
    intro prev
    unfold nested_go
    split_ifs with hx
    · left; rfl
    · rcases ih x with h | h
      · right; rw [h]; exact List.mem_cons_self x rest
      · right; exact List.mem_cons_of_mem x h

lemma nested_go_le (b : ℚ) :
    ∀ (l : List ℚ) (prev : ℚ), prev ≤ b → nested_go b prev l ≤ b := by
  intro l
  induction l with
  | nil => intro prev h; exact h
  | cons x rest ih =>
    intro prev h
    unfold nested_go
    split_ifs with hx
    · exact h
    · exact ih x (le_of_not_lt hx)

lemma nested_go_ge_prev (b : ℚ) :
    ∀ (l : List ℚ) (prev : ℚ), List.Chain (· ≤ ·) prev l → prev ≤ nested_go b prev l := by
  intro l
  induction l with
  | nil => intro prev _; exact le_refl prev
  | cons x rest ih =>
    intro prev hch
    rw [List.chain_cons] at hch
    unfold nested_go
    split_ifs with hx
    · exact le_refl prev
    · exact le_trans hch.1 (ih x hch.2)

lemma nested_go_largest (b : ℚ) :
    ∀ (l : List ℚ) (prev : ℚ), List.Chain (· ≤ ·) prev l → prev ≤ b →
      ∀ t ∈ prev :: l, t ≤ b → t ≤ nested_go b prev l := by
  intro l
  induction l with
  | nil =>
    intro prev _ _ t ht hb
    rcases List.mem_cons.mp ht with rfl | hf
    · exact le_refl t
    · exact absurd hf (List.not_mem_nil t)
  | cons x rest ih =>
    intro prev hch hprev t ht hb
    rw [List.chain_cons] at hch
    unfold nested_go
    split_ifs with hx
    · rcases List.mem_cons.mp ht with rfl | ht2
      · exact le_refl t
      · exfalso
        have hxt : x ≤ t := by
          rcases List.mem_cons.mp ht2 with rfl | ht3
          · exact le_refl t
          · exact List.Chain.rel hch.2 ht3
        exact absurd (lt_of_lt_of_le hx hxt) (not_lt.mpr hb)
    · rcases List.mem_cons.mp ht with rfl | ht2
      · exact le_trans hch.1 (nested_go_ge_prev b rest x hch.2)
      · exact ih x hch.2 (le_of_not_lt hx) t ht2 hb

lemma PNL_head : POSSIBLE_NOTE_LENGTHS.getD 0 0 = 1/8 := by
  simp [POSSIBLE_NOTE_LENGTHS]

lemma PNL_tail : POSSIBLE_NOTE_LENGTHS.drop 1 =
    [3/16, 7/32, 1/4, 3/8, 7/16, 1/2, 3/4, 7/8, 1, 3/2, 7/4, 2, 3, 7/2, 4, 6, 7] := by
  simp [POSSIBLE_NOTE_LENGTHS]

lemma PNL_chain :
    List.Chain (· ≤ ·) (1/8 : ℚ)
      [3/16, 7/32, 1/4, 3/8, 7/16, 1/2, 3/4, 7/8, 1, 3/2, 7/4, 2, 3, 7/2, 4, 6, 7] := by
  simp only [List.chain_cons, List.Chain.nil]
  norm_num

lemma get_nested_spec (r : ℚ) (hr : 1/8 ≤ r) :
    get_nested_beat_value r ∈ POSSIBLE_NOTE_LENGTHS ∧
      get_nested_beat_value r ≤ r ∧
      ∀ t ∈ POSSIBLE_NOTE_LENGTHS, t ≤ r → t ≤ get_nested_beat_value r := by
  unfold get_nested_beat_value
  rw [PNL_head, PNL_tail]
  refine ⟨?_, nested_go_le r _ _ hr, ?_⟩
  · rcases nested_go_mem r _ (1/8) with h | h
    · rw [h, POSSIBLE_NOTE_LENGTHS]
      exact List.mem_cons_self _ _
    · rw [POSSIBLE_NOTE_LENGTHS]
      exact List.mem_cons_of_mem _ (by simpa using h)
  · intro t ht hb
    refine nested_go_largest r _ (1/8) PNL_chain hr t ?_ hb
    rw [POSSIBLE_NOTE_LENGTHS] at ht
    simpa using ht

lemma nested_ge (b : ℚ) : 1/8 ≤ get_nested_beat_value b := by
  unfold get_nested_beat_value
  rw [PNL_head, PNL_tail]
  exact nested_go_ge_prev b _ _ PNL_chain

lemma nested_eighth (k : ℕ) (hk : 1 ≤ k) :
    ∃ m : ℕ, 1 ≤ m ∧ m ≤ k ∧ get_nested_beat_value ((k:ℚ)/8) = (m:ℚ)/8 := by
  have hr : (1:ℚ)/8 ≤ (k:ℚ)/8 := by
    have hq : (1:ℚ) ≤ (k:ℚ) := by exact_mod_cast hk
    linarith
  obtain ⟨hmem, hle, hbig⟩ := get_nested_spec _ hr
  simp only [POSSIBLE_NOTE_LENGTHS, List.mem_cons, List.not_mem_nil, or_false] at hmem
  rcases hmem with h|h|h|h|h|h|h|h|h|h|h|h|h|h|h|h|h|h
  · refine ⟨1, by norm_num, ?_, by rw [h]; norm_num⟩
    rw [h] at hle
    have hq : (1:ℚ) ≤ (k:ℚ) := by linarith
    exact_mod_cast hq
  · exfalso
    rw [h] at hle hbig
    have h2 : ¬ ((7/32:ℚ) ≤ (k:ℚ)/8) := fun hc => by
      have := hbig (7/32) (by rw [POSSIBLE_NOTE_LENGTHS]; simp) hc
      norm_num at this
    push_neg at h2
    have a1 : (6:ℚ) ≤ 4*(k:ℚ) := by linarith
    have b1 : 4*(k:ℚ) < 7 := by linarith
    have a2 : (6:ℕ) ≤ 4*k := by exact_mod_cast a1
    have b2 : 4*k < 7 := by exact_mod_cast b1
    omega
  · exfalso
    rw [h] at hle hbig
    have h2 : ¬ ((1/4:ℚ) ≤ (k:ℚ)/8) := fun hc => by
      have := hbig (1/4) (by rw [POSSIBLE_NOTE_LENGTHS]; simp) hc
      norm_num at this
    push_neg at h2
    have a1 : (7:ℚ) ≤ 4*(k:ℚ) := by linarith
    have b1 : 4*(k:ℚ) < 8 := by linarith
    have a2 : (7:ℕ) ≤ 4*k := by exact_mod_cast a1
    have b2 : 4*k < 8 := by exact_mod_cast b1
    omega
  · refine ⟨2, by norm_num, ?_, by rw [h]; norm_num⟩
    rw [h] at hle
    have hq : (2:ℚ) ≤ (k:ℚ) := by linarith
    exact_mod_cast hq
  · refine ⟨3, by norm_num, ?_, by rw [h]; norm_num⟩
    rw [h] at hle
    have hq : (3:ℚ) ≤ (k:ℚ) := by linarith
    exact_mod_cast hq
  · exfalso
    rw [h] at hle hbig
    have h2 : ¬ ((1/2:ℚ) ≤ (k:ℚ)/8) := fun hc => by
      have := hbig (1/2) (by rw [POSSIBLE_NOTE_LENGTHS]; simp) hc
      norm_num at this
    push_neg at h2
    have a1 : (7:ℚ) ≤ 2*(k:ℚ) := by linarith
    have b1 : 2*(k:ℚ) < 8 := by linarith
    have a2 : (7:ℕ) ≤ 2*k := by exact_mod_cast a1
    have b2 : 2*k < 8 := by exact_mod_cast b1
    omega
  · refine ⟨4, by norm_num, ?_, by rw [h]; norm_num⟩
    rw [h] at hle
    have hq : (4:ℚ) ≤ (k:ℚ) := by linarith
    exact_mod_cast hq
  · refine ⟨6, by norm_num, ?_, by rw [h]; norm_num⟩
    rw [h] at hle
    have hq : (6:ℚ) ≤ (k:ℚ) := by linarith
    exact_mod_cast hq
  · refine ⟨7, by norm_num, ?_, by rw [h]; norm_num⟩
    rw [h] at hle
    have hq : (7:ℚ) ≤ (k:ℚ) := by linarith
    exact_mod_cast hq
  · refine ⟨8, by norm_num, ?_, by rw [h]; norm_num⟩
    rw [h] at hle
    have hq : (8:ℚ) ≤ (k:ℚ) := by linarith
    exact_mod_cast hq
  · refine ⟨12, by norm_num, ?_, by rw [h]; norm_num⟩
    rw [h] at hle
    have hq : (12:ℚ) ≤ (k:ℚ) := by linarith
    exact_mod_cast hq
  · refine ⟨14, by norm_num, ?_, by rw [h]; norm_num⟩
    rw [h] at hle
    have hq : (14:ℚ) ≤ (k:ℚ) := by linarith
    exact_mod_cast hq
  · refine ⟨16, by norm_num, ?_, by rw [h]; norm_num⟩
    rw [h] at hle
    have hq : (16:ℚ) ≤ (k:ℚ) := by linarith
    exact_mod_cast hq
  · refine ⟨24, by norm_num, ?_, by rw [h]; norm_num⟩
    rw [h] at hle
    have hq : (24:ℚ) ≤ (k:ℚ) := by linarith
    exact_mod_cast hq
  · refine ⟨28, by norm_num, ?_, by rw [h]; norm_num⟩
    rw [h] at hle
    have hq : (28:ℚ) ≤ (k:ℚ) := by linarith
    exact_mod_cast hq
  · refine ⟨32, by norm_num, ?_, by rw [h]; norm_num⟩
    rw [h] at hle
    have hq : (32:ℚ) ≤ (k:ℚ) := by linarith
    exact_mod_cast hq
  · refine ⟨48, by norm_num, ?_, by rw [h]; norm_num⟩
    rw [h] at hle
    have hq : (48:ℚ) ≤ (k:ℚ) := by linarith
    exact_mod_cast hq
  · refine ⟨56, by norm_num, ?_, by rw [h]; norm_num⟩
    rw [h] at hle
    have hq : (56:ℚ) ≤ (k:ℚ) := by linarith
    exact_mod_cast hq
lemma get_tied_note_loop_isSome : ∀ (fuel : ℕ) (r : ℚ), (⌈r * 8⌉).toNat < fuel →
    (get_tied_note_loop fuel r).isSome = true := by
  intro fuel
  induction fuel with
  | zero => intro r h; exact absurd h (Nat.not_lt_zero _)
  | succ f ih =>
    intro r h
    unfold get_tied_note_loop
    split_ifs with hr
    · rw [Option.isSome_map']
      apply ih
      have hv := nested_ge r
      have h1 : (r - get_nested_beat_value r) * 8 ≤ r * 8 - 1 := by linarith
      have h2 : ⌈(r - get_nested_beat_value r) * 8⌉ ≤ ⌈r * 8⌉ - 1 := by
        have := Int.ceil_le_ceil h1
        rwa [Int.ceil_sub_one] at this
      have h3 : 0 < ⌈r * 8⌉ := Int.ceil_pos.mpr (by linarith)
      omega
    · rfl

lemma tied_loop_mult (k : ℕ) :
    ∀ fuel : ℕ, k ≤ fuel →
      ∃ vs, get_tied_note_loop fuel ((k:ℚ)/8) = some vs ∧ vs.sum = (k:ℚ)/8 ∧
        isGreedyTrace ((k:ℚ)/8) vs := by
  induction k using Nat.strong_induction_on with
  | _ k ih =>
    intro fuel hf
    rcases Nat.eq_zero_or_pos k with hk0 | hk1
    · subst hk0
      refine ⟨[], ?_, by simp, by simp [isGreedyTrace]⟩
      cases fuel <;> simp [get_tied_note_loop]
    · obtain ⟨f, rfl⟩ : ∃ f, fuel = f + 1 := ⟨fuel - 1, by omega⟩
      obtain ⟨m, hm1, hmle, hmeq⟩ := nested_eighth k hk1
      have hkpos : (0:ℚ) < (k:ℚ)/8 := by
        have hq : (1:ℚ) ≤ (k:ℚ) := by exact_mod_cast hk1
        linarith
      have hr : (1:ℚ)/8 ≤ (k:ℚ)/8 := by
        have hq : (1:ℚ) ≤ (k:ℚ) := by exact_mod_cast hk1
        linarith
      obtain ⟨hmem, hle, hbig⟩ := get_nested_spec _ hr
      have hsub : (k:ℚ)/8 - (m:ℚ)/8 = (((k - m : ℕ)):ℚ)/8 := by
        rw [Nat.cast_sub hmle]
        ring
      obtain ⟨vs, hvs, hsum, htr⟩ := ih (k - m) (by omega) f (by omega)
      refine ⟨(m:ℚ)/8 :: vs, ?_, ?_, ?_⟩
      · unfold get_tied_note_loop
        rw [if_pos hkpos, hmeq]
        show Option.map (fun vs => (m:ℚ)/8 :: vs)
            (get_tied_note_loop f ((k:ℚ)/8 - (m:ℚ)/8)) = some ((m:ℚ)/8 :: vs)
        rw [hsub, hvs]
        rfl
      · rw [List.sum_cons, hsum, Nat.cast_sub hmle]
        ring
      · refine ⟨hkpos, ?_, ?_, ?_, ?_⟩
        · rw [← hmeq]; exact hmem
        · rw [← hmeq]; exact hle
        · rw [← hmeq]; exact hbig
        · rw [← hmeq]
          show isGreedyTrace ((k:ℚ)/8 - get_nested_beat_value ((k:ℚ)/8)) vs
          rw [hmeq, hsub]
          exact htr
lemma getD_eq_getElem_of_lt {α : Type} (l : List α) (d : α) (i : ℕ) (h : i < l.length) :
    l.getD i d = l[i] := by
  rw [List.getD_eq_getElem?_getD, List.getElem?_eq_getElem h, Option.getD_some]

lemma skip_go_spec :
    ∀ (fuel : ℕ) (g : List (List (ℕ × ℕ))) (i : ℕ), g.length - i ≤ fuel →
      skip_go g fuel i = i + ((g.drop i).takeWhile (fun s => s.isEmpty)).length := by
  intro fuel
  induction fuel with
  | zero =>
    intro g i h
    have hd : g.drop i = [] := List.drop_eq_nil_of_le (by omega)
    simp [skip_go, hd]
  | succ f ih =>
    intro g i h
    unfold skip_go
    split_ifs with hc
    · obtain ⟨hi, he⟩ := hc
      rw [getD_eq_getElem_of_lt _ _ _ hi] at he
      rw [List.drop_eq_getElem_cons hi, List.takeWhile_cons, he]
      simp only [List.isEmpty_nil, if_true, List.length_cons]
      rw [ih g (i + 1) (by omega)]
      omega
    · push_neg at hc
      by_cases hi : i < g.length
      · have he := hc hi
        rw [getD_eq_getElem_of_lt _ _ _ hi] at he
        rw [List.drop_eq_getElem_cons hi, List.takeWhile_cons]
        have hne : g[i].isEmpty = false := by
          cases hg : g[i] with
          | nil => exact absurd hg he
          | cons a l => rfl
        rw [hne]
        simp
      · have hd : g.drop i = [] := List.drop_eq_nil_of_le (by omega)
        simp [hd]

lemma triplet_run_spec (g : List (List (ℕ × ℕ))) (i : ℕ) :
    triplet_run g i = (1 + rest_gap g i, i + 1 + rest_gap g i) := by
  unfold triplet_run skip_empties rest_gap
  rw [skip_go_spec (g.length - (i + 1)) g (i + 1) (le_refl _)]
  show (1 + (i + 1 + ((g.drop (i + 1)).takeWhile (fun s => s.isEmpty)).length - (i + 1)),
      i + 1 + ((g.drop (i + 1)).takeWhile (fun s => s.isEmpty)).length) = _
  rw [Nat.add_sub_cancel_left]

lemma sort3_max (a b c : ℕ) : (sort3 a b c).2.2 = max a (max b c) := by
  unfold sort3
  rcases le_or_lt a b with h1 | h1 <;> rcases le_or_lt b c with h2 | h2 <;>
    rcases le_or_lt a c with h3 | h3 <;>
      (simp [h1, h2, h3, le_of_lt, not_le_of_lt]; try omega)

lemma sort3_min (a b c : ℕ) : (sort3 a b c).1 = min a (min b c) := by
  unfold sort3
  rcases le_or_lt a b with h1 | h1 <;> rcases le_or_lt b c with h2 | h2 <;>
    rcases le_or_lt a c with h3 | h3 <;>
      (simp [h1, h2, h3, le_of_lt, not_le_of_lt]; try omega)
lemma f32mod_self (p : ℚ) (hp : p ≠ 0) : f32mod p p = 0 := by
  unfold f32mod
  rw [div_self hp, Int.floor_one]
  push_cast
  ring

lemma quantize_fixed (x : ℚ) (bt : ℕ) (p : ℚ)
    (hx : (DurationType.beat_type_map x bt).duration ≠ NoteDuration.NaN)
    (hge : p ≤ x) (hmod : f32mod x p = 0) :
    (DurationType.beat_type_map x bt).quantize bt p = DurationType.beat_type_map x bt := by
  unfold DurationType.quantize
  rw [get_beat_count_of_beat_type_map x bt hx]
  rw [if_neg (not_lt.mpr hge), hmod, sub_zero]

lemma gts_go_nil :
    ∀ (track : List TrackEvent),
      (∀ e ∈ track, ∀ numerator denominator x y,
        e.kind ≠ TrackEventKind.Meta (MetaMessage.TimeSignature numerator denominator x y)) →
      ∀ ct, get_time_signature_go track ct = [] := by
  intro track
  induction track with
  | nil => intro _ ct; rfl
  | cons e rest ih =>
    intro hno ct
    have hrest : ∀ e2 ∈ rest, ∀ numerator denominator x y,
        e2.kind ≠ TrackEventKind.Meta (MetaMessage.TimeSignature numerator denominator x y) :=
      fun e2 he2 => hno e2 (List.mem_cons_of_mem e he2)
    obtain ⟨delta, kind⟩ := e
    cases kind with
    | Midi ch msg =>
      simp only [get_time_signature_go]
      exact ih hrest _
    | Meta msg =>
      cases msg with
      | Tempo t =>
        simp only [get_time_signature_go]
        exact ih hrest _
      | TimeSignature n d x y =>
        exact absurd rfl (hno ⟨delta, TrackEventKind.Meta (MetaMessage.TimeSignature n d x y)⟩
          (List.mem_cons_self _ _) n d x y)
      | InstrumentName s =>
        simp only [get_time_signature_go]
        exact ih hrest _
      | OtherMeta =>
        simp only [get_time_signature_go]
        exact ih hrest _
    | OtherKind =>
      simp only [get_time_signature_go]
      exact ih hrest _

lemma quantize_through_fix (midi : Midi) (track : List TrackEvent) (divisions : ℚ)
    (l : List (List (List (ℕ × ℕ)) × ℕ))
    (hq : quantize midi track divisions = some l) :
    l = [] ∨ ∃ notes, fix_first notes = some l := by
  unfold quantize at hq
  dsimp only [] at hq
  split at hq
  · left
    simpa using hq.symm
  · split at hq
    · exact absurd hq (by simp)
    · right
      exact ⟨_, hq⟩

lemma fix_first_shape (notes : List (List (List (ℕ × ℕ)) × ℕ))
    (l : List (List (List (ℕ × ℕ)) × ℕ))
    (h : fix_first notes = some l) :
    ∃ bc cnt rest, l = (bc, cnt) :: rest ∧ ∃ s0 srest, bc = s0 :: srest ∧ s0 ≠ [] := by
  rcases notes with _ | ⟨⟨bc, cnt⟩, rest⟩
  · simp [fix_first] at h
  · rcases bc with _ | ⟨s0, srest⟩
    · simp [fix_first] at h
    · by_cases hs : s0 = []
      · subst hs
        simp [fix_first] at h
        exact ⟨[(255, 0)] :: srest, cnt + 1, rest, h.symm, [(255, 0)], srest, rfl, by simp⟩
      · simp [fix_first, hs] at h
        exact ⟨s0 :: srest, cnt, rest, h.symm, s0, srest, rfl, hs⟩

/-- Claim C1 (corrected).  The types-module `beat_type_map` multiplies
`beats` by `beat_type²` and looks the scaled value up exactly in its fixed
table, answering `(SIXTEENTH, Dotted)` at scaled value 6 and `(NaN, None)`
exactly off the table; the duration-module `DurationType::beat_type_map`
(the classifier the parser actually calls) performs no such scaling: it
looks the raw `beats` value up in its own 18-entry table, shifting the
matched base by `beat_type` (raw value 6 gives a shifted WHOLE, not a
SIXTEENTH), with `(NaN, None)` for any value off that table. -/
theorem C1_amended_thm :
    (∀ beats bt : ℚ, beats * bt ^ 2 = 6 →
        types.beat_type_map beats bt =
          (types.NoteDuration.SIXTEENTH, types.NoteDurationModifier.Dotted))
    ∧ (∀ beats bt : ℚ, beats * bt ^ 2 ∉ SCALED_LOOKUP_VALUES →
        types.beat_type_map beats bt =
          (types.NoteDuration.NaN, types.NoteDurationModifier.None))
    ∧ (∀ beats : ℚ, ∀ nbt : ℕ, beats ∉ POSSIBLE_NOTE_LENGTHS →
        DurationType.beat_type_map beats nbt =
          ⟨NoteDuration.NaN, NoteDurationModifier.None⟩)
    ∧ (∀ nbt : ℕ, DurationType.beat_type_map 6 nbt =
        ⟨NoteDuration.WHOLE.shift nbt, NoteDurationModifier.Dotted⟩) := by
  refine ⟨?_, ?_, ?_, btm_6⟩
  · intro beats bt h
    unfold types.beat_type_map
    simp only [h]
    norm_num
  · intro beats bt hne
    have n1 : beats * bt ^ 2 ≠ (112 : ℚ) := fun e => hne (by rw [e]; simp [SCALED_LOOKUP_VALUES])
    have n2 : beats * bt ^ 2 ≠ (96 : ℚ) := fun e => hne (by rw [e]; simp [SCALED_LOOKUP_VALUES])
    have n3 : beats * bt ^ 2 ≠ (64 : ℚ) := fun e => hne (by rw [e]; simp [SCALED_LOOKUP_VALUES])
    have n4 : beats * bt ^ 2 ≠ (56 : ℚ) := fun e => hne (by rw [e]; simp [SCALED_LOOKUP_VALUES])
    have n5 : beats * bt ^ 2 ≠ (48 : ℚ) := fun e => hne (by rw [e]; simp [SCALED_LOOKUP_VALUES])
    have n6 : beats * bt ^ 2 ≠ (32 : ℚ) := fun e => hne (by rw [e]; simp [SCALED_LOOKUP_VALUES])
    have n7 : beats * bt ^ 2 ≠ (28 : ℚ) := fun e => hne (by rw [e]; simp [SCALED_LOOKUP_VALUES])
    have n8 : beats * bt ^ 2 ≠ (24 : ℚ) := fun e => hne (by rw [e]; simp [SCALED_LOOKUP_VALUES])
    have n9 : beats * bt ^ 2 ≠ (16 : ℚ) := fun e => hne (by rw [e]; simp [SCALED_LOOKUP_VALUES])
    have n10 : beats * bt ^ 2 ≠ (14 : ℚ) := fun e => hne (by rw [e]; simp [SCALED_LOOKUP_VALUES])
    have n11 : beats * bt ^ 2 ≠ (12 : ℚ) := fun e => hne (by rw [e]; simp [SCALED_LOOKUP_VALUES])
    have n12 : beats * bt ^ 2 ≠ (8 : ℚ) := fun e => hne (by rw [e]; simp [SCALED_LOOKUP_VALUES])
    have n13 : beats * bt ^ 2 ≠ (7 : ℚ) := fun e => hne (by rw [e]; simp [SCALED_LOOKUP_VALUES])
    have n14 : beats * bt ^ 2 ≠ (6 : ℚ) := fun e => hne (by rw [e]; simp [SCALED_LOOKUP_VALUES])
    have n15 : beats * bt ^ 2 ≠ (4 : ℚ) := fun e => hne (by rw [e]; simp [SCALED_LOOKUP_VALUES])
    have n16 : beats * bt ^ 2 ≠ (7/2 : ℚ) := fun e => hne (by rw [e]; simp [SCALED_LOOKUP_VALUES])
    have n17 : beats * bt ^ 2 ≠ (3 : ℚ) := fun e => hne (by rw [e]; simp [SCALED_LOOKUP_VALUES])
    have n18 : beats * bt ^ 2 ≠ (2 : ℚ) := fun e => hne (by rw [e]; simp [SCALED_LOOKUP_VALUES])
    have n19 : beats * bt ^ 2 ≠ (7/4 : ℚ) := fun e => hne (by rw [e]; simp [SCALED_LOOKUP_VALUES])
    have n20 : beats * bt ^ 2 ≠ (3/2 : ℚ) := fun e => hne (by rw [e]; simp [SCALED_LOOKUP_VALUES])
    have n21 : beats * bt ^ 2 ≠ (1 : ℚ) := fun e => hne (by rw [e]; simp [SCALED_LOOKUP_VALUES])
    unfold types.beat_type_map
    simp only []
    rw [if_neg n1, if_neg n2, if_neg n3, if_neg n4, if_neg n5, if_neg n6, if_neg n7, if_neg n8, if_neg n9, if_neg n10, if_neg n11, if_neg n12, if_neg n13, if_neg n14, if_neg n15, if_neg n16, if_neg n17, if_neg n18, if_neg n19, if_neg n20, if_neg n21]
  · exact beat_type_map_not_mem

/-- Claim C1 witness: a value off both tables classifies as the sentinel. -/
theorem C1_witness :
    ((1:ℚ)/3 * (2:ℚ) ^ 2 ∉ SCALED_LOOKUP_VALUES) ∧
      types.beat_type_map (1/3) 2 =
        (types.NoteDuration.NaN, types.NoteDurationModifier.None) :=
  ⟨by norm_num [SCALED_LOOKUP_VALUES],
    C1_amended_thm.2.1 (1/3) 2 (by norm_num [SCALED_LOOKUP_VALUES])⟩

/-- Claim C1 counterexample: at scaled value 6 (beats 3/2, beat_type 2)
the parser's classifier answers `(QUARTER, Dotted)`, not the
`(SIXTEENTH, Dotted)` the claim derives from the scaled table. -/
theorem C1_counterexample :
    (3:ℚ)/2 * (2:ℚ) ^ 2 = 6 ∧
      DurationType.beat_type_map (3/2) 2 =
        ⟨NoteDuration.QUARTER, NoteDurationModifier.Dotted⟩ ∧
      (⟨NoteDuration.QUARTER, NoteDurationModifier.Dotted⟩ : DurationType) ≠
        ⟨NoteDuration.SIXTEENTH, NoteDurationModifier.Dotted⟩ := by
  refine ⟨by norm_num, ?_, by decide⟩
  rw [btm_32]
  rfl

/-- Claim C2 (code bug).  `get_bpm` derives the tempo of the first tempo
meta-event by `microseconds_per_beat / 1000000 * 60` in truncating
integer arithmetic, so the standard 500000 microseconds-per-beat tempo
event yields 0, not the 120 bpm that `60_000_000 / microseconds_per_beat`
(the documented conversion) gives. -/
theorem C2_code_bug_eval :
    get_bpm [⟨0, TrackEventKind.Meta (MetaMessage.Tempo 500000)⟩] = 0 ∧
      60000000 / 500000 = 120 ∧ (0 : ℕ) ≠ 120 :=
  ⟨rfl, by norm_num, by norm_num⟩

/-- Claim C3 (corrected).  On a note-on, the raw-interval extractor emits
the sentinel rest `(key 255, onset last_note_off, velocity 0)` exactly
when the gap `note_on_time - note_off_time` reaches
`ceil(ticks_per_beat / 8)` ticks — an eighth of a beat, not one tick; the
claim's own example (note-off at 40, note-on at 100, ticks-per-beat 10)
does emit the rest before the new note, the gap spanning 6.0 beats. -/
theorem C3_amended_thm :
    (∀ (ticks_per_beat : ℚ) (scalar : ℕ) (rest : List TrackEvent)
        (ch delta cur_time cur_velocity note_on_time note_off_time key vel : ℕ),
        get_raw_note_data_go ticks_per_beat scalar
            (⟨delta, TrackEventKind.Midi ch (MidiMessage.NoteOn key vel)⟩ :: rest)
            cur_time cur_velocity note_on_time note_off_time =
          (if (⌈ticks_per_beat * (1/8)⌉).toNat ≤ cur_time + delta * scalar - note_off_time
            then [⟨255, note_off_time, 0⟩] else []) ++
            get_raw_note_data_go ticks_per_beat scalar rest (cur_time + delta * scalar) vel
              (cur_time + delta * scalar) note_off_time)
    ∧ get_raw_note_data
        [⟨0, TrackEventKind.Midi 0 (MidiMessage.NoteOn 60 100)⟩,
         ⟨40, TrackEventKind.Midi 0 (MidiMessage.NoteOff 60 0)⟩,
         ⟨60, TrackEventKind.Midi 0 (MidiMessage.NoteOn 60 100)⟩,
         ⟨30, TrackEventKind.Midi 0 (MidiMessage.NoteOff 60 0)⟩] 10 1 =
        [⟨60, 0, 100⟩, ⟨255, 40, 0⟩, ⟨60, 100, 100⟩]
    ∧ ((100 : ℚ) - 40) / 10 = 6 := by
  refine ⟨fun _ _ _ _ _ _ _ _ _ _ _ => rfl, ?_, by norm_num⟩
  have hc : ⌈(5:ℚ)/4⌉ = 2 := by
    rw [Int.ceil_eq_iff]
    norm_num
  norm_num [get_raw_note_data, get_raw_note_data_go, hc]

/-- Claim C3 counterexample: with ticks-per-beat 10, a note-off at tick 40
followed by a note-on at tick 41 leaves a positive one-tick gap, yet no
sentinel rest (key 255) is emitted, refuting the gap-greater-than-zero
condition. -/
theorem C3_counterexample :
    get_raw_note_data
        [⟨0, TrackEventKind.Midi 0 (MidiMessage.NoteOn 60 100)⟩,
         ⟨40, TrackEventKind.Midi 0 (MidiMessage.NoteOff 60 0)⟩,
         ⟨1, TrackEventKind.Midi 0 (MidiMessage.NoteOn 60 100)⟩,
         ⟨4, TrackEventKind.Midi 0 (MidiMessage.NoteOff 60 0)⟩] 10 1 =
      [⟨60, 0, 100⟩, ⟨60, 41, 100⟩] ∧
    0 < 41 - 40 ∧
    ∀ r ∈ [(⟨60, 0, 100⟩ : RawNoteData), ⟨60, 41, 100⟩], r.key ≠ 255 := by
  refine ⟨?_, by norm_num, by decide⟩
  have hc : ⌈(5:ℚ)/4⌉ = 2 := by
    rw [Int.ceil_eq_iff]
    norm_num
  norm_num [get_raw_note_data, get_raw_note_data_go, hc]

/-- Claim C4 (corrected).  For every positive beat-length that is a whole
multiple of 0.125 (the smallest table entry) — in particular every such
length classifying as unrepresentable — the tied-note loop terminates
within its fuel, its chosen table values sum exactly to the input, each
step picks the largest table length not exceeding the remainder, and
`get_tied_note` wraps one classified leaf per chosen value into a tied
group.  (For positive lengths below 0.125 the loop still terminates but
overshoots, emitting a single 0.125 leaf.) -/
theorem C4_amended_thm (k beat_type value velocity : ℕ) (hk : 0 < k)
    (_hNaN : (DurationType.beat_type_map ((k:ℚ)/8) beat_type).duration = NoteDuration.NaN) :
    (∀ b : ℚ, (get_tied_note_loop ((⌈b * 8⌉).toNat + 1) b).isSome = true)
    ∧ (tied_note_values ((k:ℚ)/8)).sum = (k:ℚ)/8
    ∧ isGreedyTrace ((k:ℚ)/8) (tied_note_values ((k:ℚ)/8))
    ∧ get_tied_note value ((k:ℚ)/8) velocity beat_type =
        NoteModifier.TiedNote
          ((tied_note_values ((k:ℚ)/8)).map
            (fun v => build_note_wrapper value (DurationType.beat_type_map v beat_type) velocity)) := by
  have hfin : ∀ b : ℚ, (get_tied_note_loop ((⌈b * 8⌉).toNat + 1) b).isSome = true :=
    fun b => get_tied_note_loop_isSome _ b (by omega)
  have hkfuel : k ≤ (⌈((k:ℚ)/8) * 8⌉).toNat + 1 := by
    rw [show ((k:ℚ)/8) * 8 = (k:ℚ) by ring, Int.ceil_natCast]
    omega
  obtain ⟨vs, hvs, hsum, htr⟩ := tied_loop_mult k _ hkfuel
  have hval : tied_note_values ((k:ℚ)/8) = vs := by
    unfold tied_note_values
    rw [hvs]
    rfl
  exact ⟨hfin, by rw [hval]; exact hsum, by rw [hval]; exact htr, rfl⟩

/-- Claim C4 witness: 1.125 beats (9/8) is unrepresentable and its tied
decomposition sums back to 1.125 exactly. -/
theorem C4_witness :
    0 < 9 ∧
      (DurationType.beat_type_map (((9:ℕ):ℚ)/8) 2).duration = NoteDuration.NaN ∧
      (tied_note_values (((9:ℕ):ℚ)/8)).sum = ((9:ℕ):ℚ)/8 :=
  ⟨by norm_num,
    by rw [beat_type_map_not_mem (((9:ℕ):ℚ)/8) 2 (by norm_num [POSSIBLE_NOTE_LENGTHS])],
    (C4_amended_thm 9 2 60 100 (by norm_num)
      (by rw [beat_type_map_not_mem (((9:ℕ):ℚ)/8) 2 (by norm_num [POSSIBLE_NOTE_LENGTHS])])).2.1⟩

/-- Claim C4 counterexample: 0.0625 beats is positive and classifies as
unrepresentable, but the decomposition emits a single 0.125 leaf, so the
tied beat-lengths sum to 0.125, not 0.0625. -/
theorem C4_counterexample :
    (DurationType.beat_type_map ((1:ℚ)/16) 2).duration = NoteDuration.NaN ∧
      (0:ℚ) < 1/16 ∧
      tied_note_values ((1:ℚ)/16) = [1/8] ∧
      ([(1:ℚ)/8].sum ≠ (1:ℚ)/16) := by
  refine ⟨?_, by norm_num, ?_, by norm_num⟩
  · rw [beat_type_map_not_mem ((1:ℚ)/16) 2 (by norm_num [POSSIBLE_NOTE_LENGTHS])]
  · have hv : get_nested_beat_value ((1:ℚ)/16) = 1/8 := by
      unfold get_nested_beat_value
      rw [PNL_head, PNL_tail]
      unfold nested_go
      rw [if_pos (by norm_num)]
    have hfu : ((⌈(1:ℚ)/16 * 8⌉).toNat + 1) = 2 := by
      rw [show (1:ℚ)/16 * 8 = 1/2 by ring,
        show ⌈(1:ℚ)/2⌉ = 1 from by rw [Int.ceil_eq_iff]; norm_num]
      rfl
    unfold tied_note_values
    rw [hfu]
    norm_num [get_tied_note_loop, hv]

/-- Claim C5 (corrected).  Quantization is idempotent whenever the
once-quantized duration is representable (its base is not the NaN
sentinel): re-quantizing with the same beat type and positive grid value
returns the identical duration.  When snapping lands off the canonical
table the once-quantized duration is the NaN sentinel and idempotence
fails (see the counterexample). -/
theorem C5_amended_thm (d : DurationType) (beat_type : ℕ) (precision_beats : ℚ)
    (hp : 0 < precision_beats)
    (hrep : (d.quantize beat_type precision_beats).duration ≠ NoteDuration.NaN) :
    (d.quantize beat_type precision_beats).quantize beat_type precision_beats =
      d.quantize beat_type precision_beats := by
  by_cases hlt : d.get_beat_count beat_type < precision_beats
  · have hstep : d.quantize beat_type precision_beats =
        DurationType.beat_type_map precision_beats beat_type := by
      unfold DurationType.quantize
      rw [if_pos hlt]
    rw [hstep] at hrep ⊢
    exact quantize_fixed precision_beats beat_type precision_beats hrep (le_refl _)
      (f32mod_self _ (ne_of_gt hp))
  · have hstep : d.quantize beat_type precision_beats =
        DurationType.beat_type_map
          (d.get_beat_count beat_type - f32mod (d.get_beat_count beat_type) precision_beats)
          beat_type := by
      unfold DurationType.quantize
      rw [if_neg hlt]
    set b := d.get_beat_count beat_type with hbdef
    have hq_eq : b - f32mod b precision_beats = precision_beats * ⌊b / precision_beats⌋ := by
      unfold f32mod
      ring
    have h1le : (1:ℤ) ≤ ⌊b / precision_beats⌋ := by
      rw [Int.le_floor]
      push_cast
      rw [le_div_iff₀ hp]
      linarith [not_lt.mp hlt]
    have h1leq : (1:ℚ) ≤ (⌊b / precision_beats⌋ : ℚ) := by exact_mod_cast h1le
    have hgeq : precision_beats ≤ b - f32mod b precision_beats := by
      rw [hq_eq]
      nlinarith
    have hmod0 : f32mod (b - f32mod b precision_beats) precision_beats = 0 := by
      rw [hq_eq]
      unfold f32mod
      have hdiv : precision_beats * (⌊b / precision_beats⌋ : ℚ) / precision_beats =
          (⌊b / precision_beats⌋ : ℚ) := by
        field_simp
      rw [hdiv, Int.floor_intCast]
      ring
    rw [hstep] at hrep ⊢
    exact quantize_fixed _ beat_type precision_beats hrep hgeq hmod0

/-- Claim C5 witness: a quarter note at beat type 2 with a quarter-beat
grid quantizes to itself, and re-quantizing returns the same duration. -/
theorem C5_witness :
    (0:ℚ) < 1/4 ∧
      ((⟨NoteDuration.QUARTER, NoteDurationModifier.None⟩ : DurationType).quantize 2
          (1/4)).duration ≠ NoteDuration.NaN ∧
      ((⟨NoteDuration.QUARTER, NoteDurationModifier.None⟩ : DurationType).quantize 2
            (1/4)).quantize 2 (1/4) =
        (⟨NoteDuration.QUARTER, NoteDurationModifier.None⟩ : DurationType).quantize 2 (1/4) := by
  have hb : (⟨NoteDuration.QUARTER, NoteDurationModifier.None⟩ : DurationType).get_beat_count 2
      = 1 := by
    unfold DurationType.get_beat_count
    rw [reverse_shift_two]
    norm_num
  have hfl : ⌊(1:ℚ) / (1/4)⌋ = 4 := by norm_num
  have hmod : f32mod (1:ℚ) (1/4) = 0 := by
    unfold f32mod
    rw [hfl]
    norm_num
  have hq : (⟨NoteDuration.QUARTER, NoteDurationModifier.None⟩ : DurationType).quantize 2 (1/4)
      = ⟨NoteDuration.QUARTER, NoteDurationModifier.None⟩ := by
    unfold DurationType.quantize
    rw [hb, if_neg (by norm_num), hmod, sub_zero, btm_1]
    rfl
  have hrep : ((⟨NoteDuration.QUARTER, NoteDurationModifier.None⟩ : DurationType).quantize 2
      (1/4)).duration ≠ NoteDuration.NaN := by
    rw [hq]
    decide
  exact ⟨by norm_num, hrep, C5_amended_thm _ 2 (1/4) (by norm_num) hrep⟩

/-- Claim C5 counterexample: a dotted whole note (6 beats at beat type 2)
quantized on a 1.75-beat grid snaps to the unclassifiable value 5.25 and
becomes the NaN sentinel of beat count 0, but quantizing that result
again yields a double-dotted quarter of beat count 1.75 — quantizing
twice does not return the same duration as quantizing once. -/
theorem C5_counterexample :
    ((⟨NoteDuration.WHOLE, NoteDurationModifier.Dotted⟩ : DurationType).quantize 2
        (7/4)).get_beat_count 2 = 0 ∧
      (((⟨NoteDuration.WHOLE, NoteDurationModifier.Dotted⟩ : DurationType).quantize 2
            (7/4)).quantize 2 (7/4)).get_beat_count 2 = 7/4 ∧
      (0:ℚ) ≠ 7/4 := by
  have hb : (⟨NoteDuration.WHOLE, NoteDurationModifier.Dotted⟩ : DurationType).get_beat_count 2
      = 6 := by
    unfold DurationType.get_beat_count
    rw [reverse_shift_two]
    norm_num
  have hfl : ⌊(6:ℚ) / (7/4)⌋ = 3 := by norm_num
  have hmod : f32mod (6:ℚ) (7/4) = 3/4 := by
    unfold f32mod
    rw [hfl]
    norm_num
  have hq1 : (⟨NoteDuration.WHOLE, NoteDurationModifier.Dotted⟩ : DurationType).quantize 2 (7/4)
      = ⟨NoteDuration.NaN, NoteDurationModifier.None⟩ := by
    unfold DurationType.quantize
    rw [hb, if_neg (by norm_num), hmod]
    rw [show (6:ℚ) - 3/4 = 21/4 by norm_num]
    exact beat_type_map_not_mem _ _ (by norm_num [POSSIBLE_NOTE_LENGTHS])
  have hgb0 : (⟨NoteDuration.NaN, NoteDurationModifier.None⟩ : DurationType).get_beat_count 2
      = 0 := by
    unfold DurationType.get_beat_count
    rw [reverse_shift_two]
  have hq2 : (⟨NoteDuration.NaN, NoteDurationModifier.None⟩ : DurationType).quantize 2 (7/4)
      = ⟨NoteDuration.QUARTER, NoteDurationModifier.DoubleDotted⟩ := by
    unfold DurationType.quantize
    rw [hgb0, if_pos (by norm_num), btm_74]
    rfl
  refine ⟨by rw [hq1, hgb0], ?_, by norm_num⟩
  rw [hq1, hq2]
  unfold DurationType.get_beat_count
  rw [reverse_shift_two]
  norm_num

/-- Claim C6 (corrected).  Classification round-trips with beat counting
on every canonical table value for every beat type whose shifted base
stays on the duration scale (base not NaN); when the shift falls off the
scale the sentinel's beat count is 0 and the round trip fails (see the
counterexample). -/
theorem C6_amended_thm (b : ℚ) (_hb : b ∈ POSSIBLE_NOTE_LENGTHS) (beat_type : ℕ)
    (h : (DurationType.beat_type_map b beat_type).duration ≠ NoteDuration.NaN) :
    (DurationType.beat_type_map b beat_type).get_beat_count beat_type = b :=
  get_beat_count_of_beat_type_map b beat_type h

/-- Claim C6 witness: the dotted-eighth table value 0.75 round-trips at
beat type 2. -/
theorem C6_witness :
    (3:ℚ)/4 ∈ POSSIBLE_NOTE_LENGTHS ∧
      (DurationType.beat_type_map (3/4) 2).duration ≠ NoteDuration.NaN ∧
      (DurationType.beat_type_map (3/4) 2).get_beat_count 2 = 3/4 := by
  have h1 : (3:ℚ)/4 ∈ POSSIBLE_NOTE_LENGTHS := by simp [POSSIBLE_NOTE_LENGTHS]
  have h2 : (DurationType.beat_type_map (3/4) 2).duration ≠ NoteDuration.NaN := by
    rw [btm_34]
    decide
  exact ⟨h1, h2, C6_amended_thm (3/4) h1 2 h2⟩

/-- Claim C6 counterexample: the table value 4.0 at beat type 1 shifts
WHOLE off the scale to NaN, whose beat count is 0, so the round trip
returns 0 instead of 4. -/
theorem C6_counterexample :
    (4:ℚ) ∈ POSSIBLE_NOTE_LENGTHS ∧
      (DurationType.beat_type_map 4 1).get_beat_count 1 = 0 ∧ (0:ℚ) ≠ 4 := by
  refine ⟨by simp [POSSIBLE_NOTE_LENGTHS], ?_, by norm_num⟩
  rw [btm_4]
  rfl

/-- Claim C7 (corrected).  The triplet-candidate test returns true iff the
beat's note count field equals 3 — onsets counted with multiplicity, not
distinct onset-subdivisions — and, taking the three runs obtained by
scanning the subdivision grid from slot 0 (each run one slot plus the
empty slots after it), the spread between longest and shortest run is at
most 2 and the longest run exceeds a quarter of the subdivision count. -/
theorem C7_amended_thm (beat_grid : List (List (ℕ × ℕ))) (note_count : ℕ) :
    is_possible_triplet (beat_grid, note_count) = true ↔
      note_count = 3 ∧
        max (1 + rest_gap beat_grid 0)
            (max (1 + rest_gap beat_grid (0 + 1 + rest_gap beat_grid 0))
              (1 + rest_gap beat_grid
                (0 + 1 + rest_gap beat_grid 0 + 1 +
                  rest_gap beat_grid (0 + 1 + rest_gap beat_grid 0)))) -
          min (1 + rest_gap beat_grid 0)
            (min (1 + rest_gap beat_grid (0 + 1 + rest_gap beat_grid 0))
              (1 + rest_gap beat_grid
                (0 + 1 + rest_gap beat_grid 0 + 1 +
                  rest_gap beat_grid (0 + 1 + rest_gap beat_grid 0)))) ≤ 2 ∧
        beat_grid.length / 4 <
          max (1 + rest_gap beat_grid 0)
            (max (1 + rest_gap beat_grid (0 + 1 + rest_gap beat_grid 0))
              (1 + rest_gap beat_grid
                (0 + 1 + rest_gap beat_grid 0 + 1 +
                  rest_gap beat_grid (0 + 1 + rest_gap beat_grid 0)))) := by
  unfold is_possible_triplet
  by_cases hc : note_count = 3
  · simp only [hc, ne_eq, not_true_eq_false, if_false, triplet_run_spec]
    rw [sort3_max, sort3_min]
    simp [decide_eq_true_eq]
  · simp [hc]

/-- Claim C7 counterexample: a beat whose grid holds onsets in only two
distinct subdivision slots (a two-note chord in slot 0 plus one note in
slot 3) but whose note count field is 3 is accepted as a triplet
candidate, refuting the distinct-onset-subdivision reading. -/
theorem C7_counterexample :
    is_possible_triplet ([[(60, 100), (64, 100)], [], [], [(67, 100)], [], []], 3) = true ∧
      (([[(60, 100), (64, 100)], [], [], [(67, 100)], [], []] :
          List (List (ℕ × ℕ))).filter (fun s => !s.isEmpty)).length = 2 ∧
      (2 : ℕ) ≠ 3 :=
  ⟨by decide, by decide, by decide⟩

/-- Claim C8 (corrected).  The entries of a slot that are not the rest
sentinel collapse as follows: none of them gives a rest wrapper of the
slot's length; exactly one gives that entry's bare parsed wrapper (never a
singleton chord); two or more give exactly one Chord whose children are
the parsed entries one per occurrence in stable input order — per entry,
not per distinct pitch: a pitch occurring twice yields two children. -/
theorem C8_amended_thm (cur_note : List (ℕ × ℕ)) (beat_length : ℚ) (beat_type : ℕ) :
    (cur_note.filter (fun nd => nd.1 ≠ 255) = [] →
        gen_wrapper cur_note beat_length beat_type =
          build_note_wrapper 255 (DurationType.beat_type_map beat_length beat_type) 0)
    ∧ (∀ nd, cur_note.filter (fun nd => nd.1 ≠ 255) = [nd] →
        gen_wrapper cur_note beat_length beat_type = parse_note_data nd beat_length beat_type)
    ∧ (2 ≤ (cur_note.filter (fun nd => nd.1 ≠ 255)).length →
        gen_wrapper cur_note beat_length beat_type =
          NoteWrapper.ModifiedNote
            (NoteModifier.Chord
              ((cur_note.filter (fun nd => nd.1 ≠ 255)).map
                (fun nd => parse_note_data nd beat_length beat_type)))) := by
  refine ⟨?_, ?_, ?_⟩
  · intro h
    unfold gen_wrapper
    rw [h]
    rfl
  · intro nd h
    unfold gen_wrapper
    rw [h]
    rfl
  · intro h
    rcases hl : cur_note.filter (fun nd => nd.1 ≠ 255) with _ | ⟨a, tl⟩
    · rw [hl] at h
      simp at h
    · rcases tl with _ | ⟨b, tl2⟩
      · rw [hl] at h
        simp at h
      · unfold gen_wrapper
        rw [hl]
        rfl

/-- Claim C8 witness: two entries of differing pitch at one slot yield a
single Chord with the two parsed notes in input order. -/
theorem C8_witness :
    2 ≤ (([(60, 100), (64, 90)] : List (ℕ × ℕ)).filter (fun nd => nd.1 ≠ 255)).length ∧
      gen_wrapper [(60, 100), (64, 90)] 1 2 =
        NoteWrapper.ModifiedNote
          (NoteModifier.Chord
            ((([(60, 100), (64, 90)] : List (ℕ × ℕ)).filter (fun nd => nd.1 ≠ 255)).map
              (fun nd => parse_note_data nd 1 2))) :=
  ⟨by decide, (C8_amended_thm [(60, 100), (64, 90)] 1 2).2.2 (by decide)⟩

/-- Claim C8 counterexample: two entries of the same pitch at one slot
yield a Chord with two children for the single distinct pitch, refuting
one-leaf-per-pitch. -/
theorem C8_counterexample :
    gen_wrapper [(60, 100), (60, 90)] 1 2 =
      NoteWrapper.ModifiedNote
        (NoteModifier.Chord
          [NoteWrapper.PlainNote ⟨60, ⟨NoteDuration.QUARTER, NoteDurationModifier.None⟩, 100⟩,
           NoteWrapper.PlainNote ⟨60, ⟨NoteDuration.QUARTER, NoteDurationModifier.None⟩, 90⟩]) ∧
      ([(60, 100), (60, 90)].map (fun nd : ℕ × ℕ => nd.1)).dedup.length = 1 ∧
      (2 : ℕ) ≠ 1 := by
  have h1 : DurationType.beat_type_map 1 2 =
      ⟨NoteDuration.QUARTER, NoteDurationModifier.None⟩ := by
    rw [btm_1]
    rfl
  refine ⟨?_, by decide, by decide⟩
  unfold gen_wrapper parse_note_data
  rw [show (([(60, 100), (60, 90)] : List (ℕ × ℕ)).filter (fun nd => nd.1 ≠ 255))
      = [(60, 100), (60, 90)] from by decide]
  simp [h1, build_note_wrapper]

/-- Claim C9 (confirmed).  When track 0 yields no time-signature
meta-event the `Midi` header holds no time signatures, `get_notes` aborts
at the `time_signatures[0]` access before classifying anything (no
silently defaulted beat type), and `load_tracks` of any non-empty track
list aborts the whole parse, producing no `Midi` value with tracks. -/
theorem C9_thm (midi : Midi) (precision : DurationType) (triplet : Bool)
    (h : midi.time_signatures = []) :
    (∀ track, get_notes midi track precision triplet = none)
    ∧ (∀ tracks, tracks ≠ [] → load_tracks midi tracks precision triplet = none)
    ∧ (∀ track0, (∀ e ∈ track0, ∀ numerator denominator x y,
          e.kind ≠ TrackEventKind.Meta (MetaMessage.TimeSignature numerator denominator x y)) →
        get_time_signature track0 = []) := by
  have hg : ∀ track, get_notes midi track precision triplet = none := by
    intro track
    unfold get_notes
    rw [h]
    rfl
  refine ⟨hg, ?_, ?_⟩
  · intro tracks ht
    rcases tracks with _ | ⟨t, rest⟩
    · exact absurd rfl ht
    · unfold load_tracks
      have hp : parse_track midi t precision triplet = none := by
        unfold parse_track
        rw [hg t]
        rfl
      rw [List.mapM_cons, hp]
      rfl
  · intro track0 hno
    exact gts_go_nil track0 hno 0

/-- Claim C9 witness: a header with no time signatures makes `get_notes`
fail on a concrete track. -/
theorem C9_witness :
    (Midi.mk 0 [] 12 []).time_signatures = [] ∧
      get_notes ⟨0, [], 12, []⟩ [⟨0, TrackEventKind.Midi 0 (MidiMessage.NoteOn 60 100)⟩]
        DEFAULT_DURATION_PRECISION false = none :=
  ⟨rfl, (C9_thm ⟨0, [], 12, []⟩ DEFAULT_DURATION_PRECISION false rfl).1 _⟩

/-- Claim C10 (confirmed).  Whenever `quantize` completes with a
non-empty beat list, the first subdivision slot of the first beat is
non-empty; and when the loop left that slot empty the final fix-up step
inserted exactly the sentinel rest entry `(255, 0)` into it and counted
it as one additional onset. -/
theorem C10_thm (midi : Midi) (track : List TrackEvent) (divisions : ℚ)
    (l : List (List (List (ℕ × ℕ)) × ℕ))
    (hq : quantize midi track divisions = some l) (hne : l ≠ []) :
    (∃ bc cnt rest, l = (bc, cnt) :: rest ∧ ∃ s0 srest, bc = s0 :: srest ∧ s0 ≠ []) ∧
      (∀ (srest : List (List (ℕ × ℕ))) (cnt : ℕ) (rest : List (List (List (ℕ × ℕ)) × ℕ)),
        fix_first ((([] : List (ℕ × ℕ)) :: srest, cnt) :: rest) =
          some (([(255, 0)] :: srest, cnt + 1) :: rest)) := by
  constructor
  · rcases quantize_through_fix midi track divisions l hq with rfl | ⟨notes, hf⟩
    · exact absurd rfl hne
    · exact fix_first_shape notes l hf
  · intro srest cnt rest
    simp [fix_first]

/-- Claim C10 witness: one quarter note starting at tick 0 quantizes to a
single beat whose first slot holds that note. -/
theorem C10_witness :
    quantize ⟨0, [⟨4, 2, 0⟩], 12, []⟩
        [⟨0, TrackEventKind.Midi 0 (MidiMessage.NoteOn 60 100)⟩,
         ⟨12, TrackEventKind.Midi 0 (MidiMessage.NoteOff 60 0)⟩] 1 =
      some [([[(60, 100)]], 1)] ∧
      ([([[(60, 100)]], 1)] : List (List (List (ℕ × ℕ)) × ℕ)) ≠ [] ∧
      (∃ bc cnt rest,
        ([([[(60, 100)]], 1)] : List (List (List (ℕ × ℕ)) × ℕ)) = (bc, cnt) :: rest ∧
          ∃ s0 srest, bc = s0 :: srest ∧ s0 ≠ []) := by
  have hraw : get_raw_note_data
      [⟨0, TrackEventKind.Midi 0 (MidiMessage.NoteOn 60 100)⟩,
       ⟨12, TrackEventKind.Midi 0 (MidiMessage.NoteOff 60 0)⟩] 12 1 = [⟨60, 0, 100⟩] := by
    have hc : ⌈(3:ℚ)/2⌉ = 2 := by
      rw [Int.ceil_eq_iff]
      norm_num
    norm_num [get_raw_note_data, get_raw_note_data_go, hc]
  have hbeat : quantize_beat 12 1 12 12 ⟨60, 0, 100⟩ [] [[]] 0 =
      some ([[(60, 100)]], 1, none) := by
    unfold quantize_beat
    rw [if_pos (by norm_num : (⟨60, 0, 100⟩ : RawNoteData).onset < 12)]
    norm_num [push_at]
  have hgo : quantize_go 12 1 12 3 12 ⟨60, 0, 100⟩ [] = some [([[(60, 100)]], 1)] := by
    unfold quantize_go
    norm_num [hbeat, Int.floor_one]
  have hq : quantize ⟨0, [⟨4, 2, 0⟩], 12, []⟩
      [⟨0, TrackEventKind.Midi 0 (MidiMessage.NoteOn 60 100)⟩,
       ⟨12, TrackEventKind.Midi 0 (MidiMessage.NoteOff 60 0)⟩] 1 =
      some [([[(60, 100)]], 1)] := by
    unfold quantize
    have e1 : f32mod (12:ℚ) 12 = 0 := f32mod_self 12 (by norm_num)
    have ht : (Int.toNat 12) = 12 := rfl
    norm_num [e1, hraw, hgo, ht, fix_first]
  refine ⟨hq, by decide, ?_⟩
  exact (C10_thm ⟨0, [⟨4, 2, 0⟩], 12, []⟩ _ 1 _ hq (by decide)).1
